import Mathlib

/-!
Verification of the libdivecomputer excerpt (cressi_leonardo.c, uwatec_smart.c,
socket.c) against its natural-language specification.

The C sources are shallowly embedded: a memory image is a byte function
`Nat → Nat` read modulo 256 (the `unsigned char` store), machine arithmetic on
`unsigned int` values is made explicit with `% 2^32` where the C code can wrap,
loops become fuel-indexed structural recursions whose fuel is chosen at the call
sites exactly large enough to be unreachable (mirroring the C loop bounds), and
status codes become an inductive type.  The consumer callback of the dive
extractors is an explicit function argument and the list of records it was
invoked on is returned alongside the status, so that theorems can speak about
the sequence of consumer invocations.
-/

set_option maxRecDepth 4096

/-- Status codes of the library (dc_status_t), restricted to the values used
by the embedded code. -/
inductive DcStatus where
  | success
  | dataformat
  | invalidargs
  | nomemory
  | protocol
  | timeout
  | io
  | cancelled
deriving DecidableEq

/-- 2^32, the modulus of C `unsigned int` arithmetic. -/
def M32 : Nat := 4294967296

/-- A byte read from a memory image: the store is `unsigned char[]`, so every
read is reduced modulo 256. -/
def byteAt (d : Nat → Nat) (i : Nat) : Nat := d i % 256

/-- Modelled from the spec: little-endian 16-bit extraction (`array_uint16_le`
of array.c, which is outside this excerpt; spec section 4.2 "big/little-endian
integer extraction from byte arrays"). -/
def array_uint16_le (d : Nat → Nat) (off : Nat) : Nat :=
  byteAt d off + 256 * byteAt d (off + 1)

/-- Modelled from the spec: little-endian 32-bit extraction (`array_uint32_le`
of array.c, outside this excerpt; spec section 4.2). -/
def array_uint32_le (d : Nat → Nat) (off : Nat) : Nat :=
  byteAt d off + 256 * byteAt d (off + 1) + 65536 * byteAt d (off + 2) +
    16777216 * byteAt d (off + 3)

/-- Modelled from the spec: `array_isequal` of array.c (outside this excerpt),
used for the "all-0xFF slot means never written" test of spec section 3
(logbook slot invariant).  True iff the `n` bytes starting at `off` all equal
`v`. -/
def array_isequal (d : Nat → Nat) : Nat → Nat → Nat → Bool
  | _, 0, _ => true
  | off, n + 1, v => (byteAt d off == v) && array_isequal d (off + 1) n v

/-- Modelled from the spec: `ringbuffer_distance` of ringbuffer.c (outside
this excerpt) in the mode used by `RB_PROFILE_DISTANCE`: the circular distance
from `a` to `b` in the region `[rbegin, rend)` (spec section 4.4 step d,
"circular distance from header to footer"); equal positions give distance 0. -/
def ringbuffer_distance (a b rbegin rend : Nat) : Nat :=
  if a ≤ b then b - a else (rend - a) + (b - rbegin)

/-- `memcpy`-style read of `n` consecutive bytes starting at `off`. -/
def bytesFrom (d : Nat → Nat) : Nat → Nat → List Nat
  | _, 0 => []
  | off, n + 1 => byteAt d off :: bytesFrom d (off + 1) n

/-! ## Cressi Leonardo constants (cressi_leonardo.c lines 36-48) -/

def SZ_MEMORY : Nat := 32000
def RB_LOGBOOK_BEGIN : Nat := 0x0100
def RB_LOGBOOK_END : Nat := 0x1438
def RB_LOGBOOK_SIZE : Nat := 0x52
def RB_LOGBOOK_COUNT : Nat := (RB_LOGBOOK_END - RB_LOGBOOK_BEGIN) / RB_LOGBOOK_SIZE
def RB_PROFILE_BEGIN : Nat := 0x1438
def RB_PROFILE_END : Nat := SZ_MEMORY
def MAXRETRIES : Nat := 4

/-- Offset of logbook slot `idx` in the memory image. -/
def slotOff (idx : Nat) : Nat := RB_LOGBOOK_BEGIN + idx * RB_LOGBOOK_SIZE

/-- Physical slot index visited at backward-walk position `i`
(cressi_leonardo.c line 485). -/
def walkIdx (latest i : Nat) : Nat :=
  (latest + RB_LOGBOOK_COUNT - i) % RB_LOGBOOK_COUNT

/-- The profile-region start ("header") pointer of the slot at `off`
(cressi_leonardo.c line 489). -/
def slotHeader (d : Nat → Nat) (off : Nat) : Nat := array_uint16_le d (off + 2)

/-- The profile-region end ("footer") pointer of the slot at `off`
(cressi_leonardo.c line 490). -/
def slotFooter (d : Nat → Nat) (off : Nat) : Nat := array_uint16_le d (off + 4)

/-- The 5-byte embedded identifier of the slot at `off`
(cressi_leonardo.c line 506, `data + offset + 8`). -/
def slotId (d : Nat → Nat) (off : Nat) : List Nat := bytesFrom d (off + 8) 5

/-- The fingerprint comparison of cressi_leonardo.c line 506: `fp = none`
models a NULL device (no check); otherwise the 5 identifier bytes at `off8`
are compared with the stored fingerprint. -/
def fpMatches (d : Nat → Nat) (off8 : Nat) (fp : Option (List Nat)) : Bool :=
  match fp with
  | none => false
  | some f => bytesFrom d off8 5 == f

/-- Profile length of the slot at `off` as computed at cressi_leonardo.c line
514: `RB_PROFILE_DISTANCE (header, footer) - 2` in `unsigned int` arithmetic
(the subtraction wraps modulo 2^32 when the distance is below 2). -/
def profLen (d : Nat → Nat) (off : Nat) : Nat :=
  (ringbuffer_distance (slotHeader d off) (slotFooter d off)
      RB_PROFILE_BEGIN RB_PROFILE_END + (M32 - 2)) % M32

/-- The profile bytes copied at cressi_leonardo.c lines 527-534: one read, or
two reads when the range wraps from the end of the profile region back to its
start.  The overflow test `address + length > RB_PROFILE_END` is an
`unsigned int` comparison, hence the modulus. -/
def profileBytes (d : Nat → Nat) (address length : Nat) : List Nat :=
  if RB_PROFILE_END < (address + length) % M32 then
    bytesFrom d address (RB_PROFILE_END - address) ++
      bytesFrom d RB_PROFILE_BEGIN (length - (RB_PROFILE_END - address))
  else
    bytesFrom d address length

/-- The logbook scan of cressi_leonardo.c lines 452-474: walk the slot array
in physical order, stop at the first never-written (all-0xFF) slot or at a
corrupt `0xFFFF` counter, counting slots and tracking the slot with the
maximum internal dive counter.  Returns `(count, latest)`.  The fuel is
`RB_LOGBOOK_COUNT` at the call site, exactly the C loop bound. -/
def scanLogbook (d : Nat → Nat) : Nat → Nat → Nat → Nat → Nat → Nat × Nat
  | 0, _, count, latest, _ => (count, latest)
  | fuel + 1, i, count, latest, maximum =>
    if array_isequal d (slotOff i) RB_LOGBOOK_SIZE 0xFF then (count, latest)
    else if array_uint16_le d (slotOff i) = 0xFFFF then (count, latest)
    else if maximum < array_uint16_le d (slotOff i) then
      scanLogbook d fuel (i + 1) (count + 1) i (array_uint16_le d (slotOff i))
    else
      scanLogbook d fuel (i + 1) (count + 1) latest maximum

/-- The backward walk of cressi_leonardo.c lines 482-548.  Arguments after
`latest`: remaining loop fuel (`count - i` at the call site, so fuel runs out
exactly when `i` reaches `count`), the iteration counter `i`, the `previous`
header tracker, the `remaining` scratch capacity, and the accumulated list of
records passed to the consumer so far.  Returns the final status together
with the full list of consumer invocations. -/
def extractLoop (d : Nat → Nat) (fp : Option (List Nat))
    (cb : List Nat → List Nat → Bool) (latest : Nat) :
    Nat → Nat → Nat → Nat → List (List Nat) → DcStatus × List (List Nat)
  | 0, _, _, _, acc => (DcStatus.success, acc)
  | fuel + 1, i, previous, remaining, acc =>
    if slotHeader d (slotOff (walkIdx latest i)) < RB_PROFILE_BEGIN ∨
        RB_PROFILE_END < slotHeader d (slotOff (walkIdx latest i)) + 2 ∨
        slotFooter d (slotOff (walkIdx latest i)) < RB_PROFILE_BEGIN ∨
        RB_PROFILE_END < slotFooter d (slotOff (walkIdx latest i)) + 2 then
      (DcStatus.dataformat, acc)
    else if previous ≠ 0 ∧ previous ≠ slotFooter d (slotOff (walkIdx latest i)) + 2 then
      (DcStatus.dataformat, acc)
    else if fpMatches d (slotOff (walkIdx latest i) + 8) fp then
      (DcStatus.success, acc)
    else if remaining ≠ 0 ∧ (profLen d (slotOff (walkIdx latest i)) + 4) % M32 ≤ remaining then
      if array_uint16_le d (slotFooter d (slotOff (walkIdx latest i))) ≠
            slotHeader d (slotOff (walkIdx latest i)) ∨
          array_uint16_le d (slotHeader d (slotOff (walkIdx latest i))) ≠
            slotFooter d (slotOff (walkIdx latest i)) then
        (DcStatus.dataformat, acc)
      else if cb (bytesFrom d (slotOff (walkIdx latest i)) RB_LOGBOOK_SIZE ++
              profileBytes d (slotHeader d (slotOff (walkIdx latest i)) + 2)
                (profLen d (slotOff (walkIdx latest i))))
            (slotId d (slotOff (walkIdx latest i))) then
        extractLoop d fp cb latest fuel (i + 1)
          (slotHeader d (slotOff (walkIdx latest i)))
          (remaining - (profLen d (slotOff (walkIdx latest i)) + 4) % M32)
          (acc ++ [bytesFrom d (slotOff (walkIdx latest i)) RB_LOGBOOK_SIZE ++
            profileBytes d (slotHeader d (slotOff (walkIdx latest i)) + 2)
              (profLen d (slotOff (walkIdx latest i)))])
      else
        (DcStatus.success,
          acc ++ [bytesFrom d (slotOff (walkIdx latest i)) RB_LOGBOOK_SIZE ++
            profileBytes d (slotHeader d (slotOff (walkIdx latest i)) + 2)
              (profLen d (slotOff (walkIdx latest i)))])
    else if cb (bytesFrom d (slotOff (walkIdx latest i)) RB_LOGBOOK_SIZE)
          (slotId d (slotOff (walkIdx latest i))) then
      extractLoop d fp cb latest fuel (i + 1)
        (slotHeader d (slotOff (walkIdx latest i))) 0
        (acc ++ [bytesFrom d (slotOff (walkIdx latest i)) RB_LOGBOOK_SIZE])
    else
      (DcStatus.success,
        acc ++ [bytesFrom d (slotOff (walkIdx latest i)) RB_LOGBOOK_SIZE])

/-- cressi_leonardo_extract_dives (cressi_leonardo.c lines 436-553).
`fp = some f` models a device with stored fingerprint `f` (five bytes; the
freshly-opened or size-0 reset state is five zero bytes); `fp = none` models a
NULL device argument.  `cb` is the consumer; the returned list is the sequence
of records it was invoked on. -/
def cressi_leonardo_extract_dives (d : Nat → Nat) (size : Nat)
    (fp : Option (List Nat)) (cb : List Nat → List Nat → Bool) :
    DcStatus × List (List Nat) :=
  if size < SZ_MEMORY then (DcStatus.dataformat, [])
  else
    extractLoop d fp cb (scanLogbook d RB_LOGBOOK_COUNT 0 0 0 0).2
      (scanLogbook d RB_LOGBOOK_COUNT 0 0 0 0).1 0 0
      (RB_PROFILE_END - RB_PROFILE_BEGIN) []

/-- cressi_leonardo_device_set_fingerprint (cressi_leonardo.c lines 256-270):
the stored fingerprint is a 5-byte array; a nonzero size other than 5 is
rejected without mutating it, size 5 overwrites it with the 5 given bytes,
size 0 resets it to five zero bytes. -/
def cressi_leonardo_device_set_fingerprint (state : List Nat)
    (data : List Nat) (size : Nat) : DcStatus × List Nat :=
  if size ≠ 0 ∧ size ≠ 5 then (DcStatus.invalidargs, state)
  else if size ≠ 0 then (DcStatus.success, data.take 5)
  else (DcStatus.success, List.replicate 5 0)

/-- The retry loop of cressi_leonardo_transfer (cressi_leonardo.c lines
139-160).  `attempts k` is the status of the `k`-th underlying
`cressi_leonardo_packet` call (abstracting device and I/O); `k` plays the role
of `nretries`.  Returns the final status and the number of packet attempts
performed.  The fuel argument is `maxretries + 1` at the call site; the
fuel-exhausted branch is unreachable because the loop stops as soon as
`maxretries ≤ k`. -/
def transferAux (attempts : Nat → DcStatus) (maxretries : Nat) :
    Nat → Nat → DcStatus × Nat
  | k, 0 => (attempts k, k + 1)
  | k, fuel + 1 =>
    if attempts k = DcStatus.success then (attempts k, k + 1)
    else if attempts k ≠ DcStatus.protocol ∧ attempts k ≠ DcStatus.timeout then
      (attempts k, k + 1)
    else if maxretries ≤ k then (attempts k, k + 1)
    else transferAux attempts maxretries (k + 1) fuel

/-- cressi_leonardo_transfer (cressi_leonardo.c lines 139-160) with the retry
bound as a parameter (the source fixes it to `MAXRETRIES`). -/
def cressi_leonardo_transfer (attempts : Nat → DcStatus) (maxretries : Nat) :
    DcStatus × Nat :=
  transferAux attempts maxretries 0 (maxretries + 1)

/-! ## Uwatec Smart (uwatec_smart.c) -/

/-- uwatec_smart_device_set_fingerprint (uwatec_smart.c lines 242-256): the
stored state is the 32-bit `timestamp`; a nonzero size other than 4 is
rejected without mutating it, size 4 stores the little-endian decode of the 4
given bytes, size 0 resets it to 0. -/
def uwatec_smart_device_set_fingerprint (timestamp : Nat) (data : List Nat)
    (size : Nat) : DcStatus × Nat :=
  if size ≠ 0 ∧ size ≠ 4 then (DcStatus.invalidargs, timestamp)
  else if size ≠ 0 then
    (DcStatus.success,
      data.getD 0 0 % 256 + 256 * (data.getD 1 0 % 256) +
        65536 * (data.getD 2 0 % 256) + 16777216 * (data.getD 3 0 % 256))
  else (DcStatus.success, 0)

/-- True iff the 4-byte start marker {0xA5,0xA5,0x5A,0x5A} occurs at offset
`c` (uwatec_smart.c lines 424 and 431). -/
def markerAt (d : Nat → Nat) (c : Nat) : Bool :=
  (byteAt d c == 0xA5) && (byteAt d (c + 1) == 0xA5) &&
    (byteAt d (c + 2) == 0x5A) && (byteAt d (c + 3) == 0x5A)

/-- The marker-search loop of uwatec_smart_extract_dives (uwatec_smart.c
lines 429-446).  Records are identified by their `(start offset, embedded
length)` pair; the consumer `cb` receives exactly that pair (in the source it
receives `data + current` and `len`).  The overflow check at line 436,
`current + len > previous`, is computed on `unsigned int` values, so the sum
wraps modulo 2^32 — an embedded length large enough to overflow defeats the
check.  The fuel is `size` at the call site; `current` strictly decreases by
at least 1 per iteration and starts at most at `size`, so fuel cannot run out
before `current` reaches 0. -/
def uwatecLoop (d : Nat → Nat) (cb : Nat → Nat → Bool) :
    Nat → Nat → Nat → List (Nat × Nat) → DcStatus × List (Nat × Nat)
  | 0, _, _, acc => (DcStatus.success, acc)
  | fuel + 1, current, previous, acc =>
    if current = 0 then (DcStatus.success, acc)
    else if markerAt d (current - 1) then
      if previous < ((current - 1) + array_uint32_le d ((current - 1) + 4)) % M32 then
        (DcStatus.dataformat, acc)
      else if cb (current - 1) (array_uint32_le d ((current - 1) + 4)) then
        uwatecLoop d cb fuel (if 4 ≤ current - 1 then current - 1 - 4 else 0)
          (current - 1)
          (acc ++ [(current - 1, array_uint32_le d ((current - 1) + 4))])
      else
        (DcStatus.success,
          acc ++ [(current - 1, array_uint32_le d ((current - 1) + 4))])
    else
      uwatecLoop d cb fuel (current - 1) previous acc

/-- uwatec_smart_extract_dives (uwatec_smart.c lines 418-449). -/
def uwatec_smart_extract_dives (d : Nat → Nat) (size : Nat)
    (cb : Nat → Nat → Bool) : DcStatus × List (Nat × Nat) :=
  uwatecLoop d cb size (if 4 ≤ size then size - 4 else 0) size []

/-- Well-formedness of the emitted record list of uwatec_smart_extract_dives:
every record starts at a marker occurrence, starts strictly below the previous
bound (the previous record's start, initially `size`), its extent computed in
wrapping 32-bit arithmetic — `(start + length) % 2^32`, exactly what the
overflow check at uwatec_smart.c line 436 compares — does not pass that bound,
and the same holds recursively with the record's own start as the new bound.
When `start + length` does not overflow 32 bits this is the no-overlap
guarantee; a wrapping length escapes it, as the code's check does. -/
def goodChain (d : Nat → Nat) : Nat → List (Nat × Nat) → Prop
  | _, [] => True
  | bound, p :: rest =>
    markerAt d p.1 = true ∧ (p.1 + p.2) % M32 ≤ bound ∧ p.1 < bound ∧
      goodChain d p.1 rest

/-! ## Socket transport (socket.c) -/

/-- The timeout argument a socket loop passes to `select`: a concrete
`timeval` (seconds, microseconds) or the NULL pointer (wait without bound). -/
inductive SelArg where
  | bounded (sec usec : Nat)
  | infinite
deriving DecidableEq

/-- The `select` timeout built by dc_socket_read (socket.c lines 240-248):
the configured timeout in a `timeval` when it is non-negative, NULL when it is
negative (block forever). -/
def dc_socket_read_selarg (timeout : Int) : SelArg :=
  if 0 < timeout then
    SelArg.bounded (timeout / 1000).toNat (timeout % 1000 * 1000).toNat
  else if timeout = 0 then SelArg.bounded 0 0
  else SelArg.infinite

/-- The `select` timeout passed by dc_socket_write (socket.c line 298): the
literal NULL pointer, whatever the configured timeout is. -/
def dc_socket_write_selarg (timeout : Int) : SelArg :=
  SelArg.infinite

/-- One observable outcome of a dc_socket_read loop iteration: `select`
interrupted / failed / timed out, or `select` signalled readiness followed by
a `recv` that was interrupted (EINTR/EAGAIN), failed, or returned `n` bytes
(`n = 0` is the peer half-close). -/
inductive ReadEvent where
  | sIntr
  | sErr (e : DcStatus)
  | sTimeout
  | rIntr
  | rErr (e : DcStatus)
  | rData (n : Nat)

/-- The post-loop status fixup of dc_socket_read (socket.c lines 275-277):
a short (or over-long) transfer becomes `Timeout`, a complete one stays
`Success`; `nbytes` is always stored into the out-parameter. -/
def finishRead (size nbytes : Nat) : DcStatus × Nat :=
  (if nbytes ≠ size then DcStatus.timeout else DcStatus.success, nbytes)

/-- The transfer loop of dc_socket_read (socket.c lines 235-283), driven by a
script of iteration outcomes.  `none` means the script ran out while the loop
still wanted another iteration (the real loop would keep blocking). -/
def dc_socket_read_loop (size : Nat) :
    List ReadEvent → Nat → Option (DcStatus × Nat)
  | script, nbytes =>
    if nbytes < size then
      match script with
      | [] => none
      | ReadEvent.sIntr :: rest => dc_socket_read_loop size rest nbytes
      | ReadEvent.sErr e :: _ => some (e, nbytes)
      | ReadEvent.sTimeout :: _ => some (finishRead size nbytes)
      | ReadEvent.rIntr :: rest => dc_socket_read_loop size rest nbytes
      | ReadEvent.rErr e :: _ => some (e, nbytes)
      | ReadEvent.rData 0 :: _ => some (finishRead size nbytes)
      | ReadEvent.rData (n + 1) :: rest =>
        dc_socket_read_loop size rest (nbytes + (n + 1))
    else some (finishRead size nbytes)

/-- dc_socket_read (socket.c lines 228-284). -/
def dc_socket_read (size : Nat) (script : List ReadEvent) :
    Option (DcStatus × Nat) :=
  dc_socket_read_loop size script 0

/-! ## Hypothesis bundles for the backward walk -/

/-- The header/footer range check at walk position `t` passes
(cressi_leonardo.c lines 491-492, negated). -/
def ptrOK (d : Nat → Nat) (latest t : Nat) : Prop :=
  RB_PROFILE_BEGIN ≤ slotHeader d (slotOff (walkIdx latest t)) ∧
    slotHeader d (slotOff (walkIdx latest t)) + 2 ≤ RB_PROFILE_END ∧
    RB_PROFILE_BEGIN ≤ slotFooter d (slotOff (walkIdx latest t)) ∧
    slotFooter d (slotOff (walkIdx latest t)) + 2 ≤ RB_PROFILE_END

instance (d : Nat → Nat) (latest t : Nat) : Decidable (ptrOK d latest t) := by
  unfold ptrOK; exact inferInstance

/-- The remaining per-slot conditions for the walk to emit the slot at
position `t`: its identifier does not match the stored fingerprint, and the
profile region echoes the header/footer pair back (cressi_leonardo.c lines
506 and 518-520). -/
def stepOK (d : Nat → Nat) (fp : Option (List Nat)) (latest t : Nat) : Prop :=
  fpMatches d (slotOff (walkIdx latest t) + 8) fp = false ∧
    array_uint16_le d (slotFooter d (slotOff (walkIdx latest t))) =
      slotHeader d (slotOff (walkIdx latest t)) ∧
    array_uint16_le d (slotHeader d (slotOff (walkIdx latest t))) =
      slotFooter d (slotOff (walkIdx latest t))

instance (d : Nat → Nat) (fp : Option (List Nat)) (latest t : Nat) :
    Decidable (stepOK d fp latest t) := by
  unfold stepOK; exact inferInstance

/-- The raw slot bytes visited at walk positions `i, i+1, ..., i+m-1`. -/
def walkSlots (d : Nat → Nat) (latest : Nat) : Nat → Nat → List (List Nat)
  | _, 0 => []
  | i, m + 1 =>
    bytesFrom d (slotOff (walkIdx latest i)) RB_LOGBOOK_SIZE ::
      walkSlots d latest (i + 1) m

/-! ## Concrete memory images for witnesses and counterexamples -/

/-- Byte `j` of a synthetic 82-byte logbook slot: 16-bit LE dive counter at
0-1, header pointer at 2-3, footer pointer at 4-5, a single distinguishing
identifier byte at 8 (identifier bytes 9-12 are zero), zero elsewhere. -/
def slotBytesSpec (counter header footer idb j : Nat) : Nat :=
  if j = 0 then counter % 256
  else if j = 1 then counter / 256 % 256
  else if j = 2 then header % 256
  else if j = 3 then header / 256 % 256
  else if j = 4 then footer % 256
  else if j = 5 then footer / 256 % 256
  else if j = 8 then idb
  else 0

/-- Overlay a 16-bit little-endian value `v` at position `pos`. -/
def putLE16 (pos v a old : Nat) : Nat :=
  if a = pos then v % 256 else if a = pos + 1 then v / 256 % 256 else old

/-- A synthetic memory image with three written logbook slots (physical
indices 0, 1, 2) and never-written slots beyond; each written dive's profile
stores the footer pointer at its header position and the header pointer at
its footer position (the echo checked at cressi_leonardo.c lines 518-520). -/
def mkImg3 (c0 h0 f0 i0 c1 h1 f1 i1 c2 h2 f2 i2 : Nat) : Nat → Nat :=
  fun a =>
    if a < 256 then 0
    else if a < 338 then slotBytesSpec c0 h0 f0 i0 (a - 256)
    else if a < 420 then slotBytesSpec c1 h1 f1 i1 (a - 338)
    else if a < 502 then slotBytesSpec c2 h2 f2 i2 (a - 420)
    else if a < 5176 then 255
    else
      putLE16 h0 f0 a (putLE16 f0 h0 a (putLE16 h1 f1 a (putLE16 f1 h1 a
        (putLE16 h2 f2 a (putLE16 f2 h2 a 0)))))

/-- A synthetic memory image with two written logbook slots. -/
def mkImg2 (c0 h0 f0 i0 c1 h1 f1 i1 : Nat) : Nat → Nat :=
  fun a =>
    if a < 256 then 0
    else if a < 338 then slotBytesSpec c0 h0 f0 i0 (a - 256)
    else if a < 420 then slotBytesSpec c1 h1 f1 i1 (a - 338)
    else if a < 5176 then 255
    else putLE16 h0 f0 a (putLE16 f0 h0 a (putLE16 h1 f1 a (putLE16 f1 h1 a 0)))

/-- A synthetic memory image with one written logbook slot. -/
def mkImg1 (c0 h0 f0 i0 : Nat) : Nat → Nat :=
  fun a =>
    if a < 256 then 0
    else if a < 338 then slotBytesSpec c0 h0 f0 i0 (a - 256)
    else if a < 5176 then 255
    else putLE16 h0 f0 a (putLE16 f0 h0 a 0)

/-- The layout demanded by claim C1: counters 5, 7, 6 at physical indices
0, 1, 2, with continuity-consistent non-overlapping profiles in logical
(counter) order: dive 5 on [5176,5188), dive 6 on [5188,5200), dive 7 on
[5200,5212); identifiers 1, 2, 3 (not the all-zero empty pattern). -/
def imgC1 : Nat → Nat := mkImg3 5 5176 5186 1 7 5200 5210 2 6 5188 5198 3

/-- The same three dives with counters stored in increasing physical order
5, 6, 7 at indices 0, 1, 2 — the layout of a circular logbook written in
order, on which the extractor emits 7, 6, 5. -/
def imgOrdered : Nat → Nat := mkImg3 5 5176 5186 1 6 5188 5198 2 7 5200 5210 3

/-- Two slots: the logically newer dive (counter 7) has out-of-range
header/footer pointers (zero), the older dive (counter 5) is valid and
carries identifier byte 9. -/
def imgBadNew : Nat → Nat := mkImg2 7 0 0 1 5 5176 5186 9

/-- One structurally valid dive whose embedded identifier is the all-zero
pattern — the same bytes as the "empty" fingerprint default. -/
def imgZeroId : Nat → Nat := mkImg1 5 5176 5186 0

/-- Always-continue consumer. -/
def cbTrue : List Nat → List Nat → Bool := fun _ _ => true

/-- Packet-attempt outcomes for the C3 scenario: the first three attempts
fail CRC validation (Protocol), the fourth succeeds. -/
def exAttempts : Nat → DcStatus :=
  fun k => if k < 3 then DcStatus.protocol else DcStatus.success

/-- A 12-byte Uwatec data stream: one start marker at offset 0 with embedded
length 4. -/
def imgUwatec : Nat → Nat :=
  fun a => [0xA5, 0xA5, 0x5A, 0x5A, 4, 0, 0, 0, 1, 2, 3, 4].getD a 0

/-- Always-continue Uwatec consumer. -/
def cbU : Nat → Nat → Bool := fun _ _ => true

/-- A 24-byte Uwatec data stream with two markers: an outer record at offset
12 with embedded length 4 (emitted first), and an inner marker at offset 1
whose embedded length 0xFFFFFFFF makes the overflow check's `current + len`
wrap past 2^32: `(1 + 0xFFFFFFFF) mod 2^32 = 0`, which is not above the
previously emitted record's start 12, so the record is emitted although its
unwrapped extent overlaps it. -/
def imgWrap : Nat → Nat :=
  fun a =>
    [0, 0xA5, 0xA5, 0x5A, 0x5A, 0xFF, 0xFF, 0xFF, 0xFF, 0, 0, 0,
      0xA5, 0xA5, 0x5A, 0x5A, 4, 0, 0, 0, 0, 0, 0, 0].getD a 0

/-! ## Helper lemmas -/

theorem byteAt_lt (d : Nat → Nat) (i : Nat) : byteAt d i < 256 :=
  Nat.mod_lt _ (by norm_num)

theorem bytesFrom_length (d : Nat → Nat) : ∀ n off, (bytesFrom d off n).length = n
  | 0, _ => rfl
  | n + 1, off => by simp [bytesFrom, bytesFrom_length d n (off + 1)]

theorem bytesFrom_append_take (d : Nat → Nat) :
    ∀ n off (p : List Nat), (bytesFrom d off n ++ p).take n = bytesFrom d off n
  | 0, _, _ => by simp [bytesFrom]
  | n + 1, off, p => by
    simp [bytesFrom, bytesFrom_append_take d n (off + 1) p]

theorem bytesFrom_take_self (d : Nat → Nat) (n off : Nat) :
    (bytesFrom d off n).take n = bytesFrom d off n := by
  have h := bytesFrom_append_take d n off []
  simpa using h

theorem extract_step (d : Nat → Nat) (fp : Option (List Nat))
    (cb : List Nat → List Nat → Bool) (latest fuel i previous remaining : Nat)
    (acc : List (List Nat))
    (hptr : ptrOK d latest i)
    (hstep : stepOK d fp latest i)
    (hprev : previous = 0 ∨ previous = slotFooter d (slotOff (walkIdx latest i)) + 2)
    (hcb : ∀ r s, cb r s = true) :
    ∃ rec rem₂,
      extractLoop d fp cb latest (fuel + 1) i previous remaining acc =
        extractLoop d fp cb latest fuel (i + 1)
          (slotHeader d (slotOff (walkIdx latest i))) rem₂ (acc ++ [rec]) ∧
      rec.take RB_LOGBOOK_SIZE =
        bytesFrom d (slotOff (walkIdx latest i)) RB_LOGBOOK_SIZE := by
  obtain ⟨hb1, hb2, hb3, hb4⟩ := hptr
  obtain ⟨hfp, he1, he2⟩ := hstep
  rw [extractLoop]
  rw [if_neg (by omega)]
  rw [if_neg (by rcases hprev with h | h <;> simp [h])]
  rw [if_neg (by simp [hfp])]
  by_cases hc : remaining ≠ 0 ∧ (profLen d (slotOff (walkIdx latest i)) + 4) % M32 ≤ remaining
  · rw [if_pos hc, if_neg (by simp [he1, he2]), if_pos (hcb _ _)]
    exact ⟨_, _, rfl, bytesFrom_append_take d RB_LOGBOOK_SIZE _ _⟩
  · rw [if_neg hc, if_pos (hcb _ _)]
    exact ⟨_, _, rfl, bytesFrom_take_self d RB_LOGBOOK_SIZE _⟩

theorem walkSlots_length (d : Nat → Nat) (latest : Nat) :
    ∀ m i, (walkSlots d latest i m).length = m
  | 0, _ => rfl
  | m + 1, i => by simp [walkSlots, walkSlots_length d latest m (i + 1)]

theorem walkEnd (d : Nat → Nat) (fp : Option (List Nat))
    (cb : List Nat → List Nat → Bool) (latest : Nat)
    (hcb : ∀ r s, cb r s = true) :
    ∀ m i previous remaining acc,
      (∀ t, t < m → ptrOK d latest (i + t)) →
      (∀ t, t < m → stepOK d fp latest (i + t)) →
      (0 < m → previous = 0 ∨ previous = slotFooter d (slotOff (walkIdx latest i)) + 2) →
      (∀ t, t < m → t + 1 < m →
        slotHeader d (slotOff (walkIdx latest (i + t))) =
          slotFooter d (slotOff (walkIdx latest (i + t + 1))) + 2) →
      ∃ L, extractLoop d fp cb latest m i previous remaining acc =
          (DcStatus.success, acc ++ L) ∧
        L.map (fun r => r.take RB_LOGBOOK_SIZE) = walkSlots d latest i m
  | 0, i, previous, remaining, acc, _, _, _, _ =>
    ⟨[], by simp [extractLoop, walkSlots]⟩
  | m + 1, i, previous, remaining, acc, hptr, hstep, hprev, hchain => by
    obtain ⟨rec, rem₂, heq, htake⟩ :=
      extract_step d fp cb latest m i previous remaining acc
        (by have := hptr 0 (by omega); simpa using this)
        (by have := hstep 0 (by omega); simpa using this)
        (hprev (by omega)) hcb
    obtain ⟨L, hL, hmap⟩ :=
      walkEnd d fp cb latest hcb m (i + 1)
        (slotHeader d (slotOff (walkIdx latest i))) rem₂ (acc ++ [rec])
        (fun t ht => by
          have := hptr (t + 1) (by omega)
          have harith : i + (t + 1) = i + 1 + t := by omega
          rwa [harith] at this)
        (fun t ht => by
          have := hstep (t + 1) (by omega)
          have harith : i + (t + 1) = i + 1 + t := by omega
          rwa [harith] at this)
        (fun hm => by
          have := hchain 0 (by omega) (by omega)
          simp only [Nat.add_zero] at this
          exact Or.inr this)
        (fun t ht ht2 => by
          have := hchain (t + 1) (by omega) (by omega)
          have ha1 : i + (t + 1) = i + 1 + t := by omega
          rwa [ha1] at this)
    refine ⟨rec :: L, ?_, ?_⟩
    · rw [heq, hL, List.append_assoc]
      simp
    · simp only [List.map_cons, hmap, htake, walkSlots]

theorem walkFp (d : Nat → Nat) (fp : Option (List Nat))
    (cb : List Nat → List Nat → Bool) (latest : Nat)
    (hcb : ∀ r s, cb r s = true) :
    ∀ m fuelRest i previous remaining acc,
      (∀ t, t ≤ m → ptrOK d latest (i + t)) →
      (∀ t, t < m → stepOK d fp latest (i + t)) →
      (previous = 0 ∨ previous = slotFooter d (slotOff (walkIdx latest i)) + 2) →
      (∀ t, t ≤ m → t + 1 ≤ m →
        slotHeader d (slotOff (walkIdx latest (i + t))) =
          slotFooter d (slotOff (walkIdx latest (i + t + 1))) + 2) →
      fpMatches d (slotOff (walkIdx latest (i + m)) + 8) fp = true →
      ∃ L, extractLoop d fp cb latest (m + (fuelRest + 1)) i previous remaining acc =
          (DcStatus.success, acc ++ L) ∧
        L.map (fun r => r.take RB_LOGBOOK_SIZE) = walkSlots d latest i m ∧
        L.length = m
  | 0, fuelRest, i, previous, remaining, acc, hptr, _, hprev, _, hmatch => by
    refine ⟨[], ?_, by simp [walkSlots], rfl⟩
    have hp := hptr 0 (by omega)
    simp only [Nat.add_zero] at hp hmatch
    obtain ⟨hb1, hb2, hb3, hb4⟩ := hp
    rw [Nat.zero_add, extractLoop]
    rw [if_neg (by omega)]
    rw [if_neg (by rcases hprev with h | h <;> simp [h])]
    rw [if_pos hmatch]
    simp
  | m + 1, fuelRest, i, previous, remaining, acc, hptr, hstep, hprev, hchain, hmatch => by
    obtain ⟨rec, rem₂, heq, htake⟩ :=
      extract_step d fp cb latest (m + (fuelRest + 1)) i previous remaining acc
        (by have := hptr 0 (by omega); simpa using this)
        (by have := hstep 0 (by omega); simpa using this)
        hprev hcb
    obtain ⟨L, hL, hmap, hlen⟩ :=
      walkFp d fp cb latest hcb m fuelRest (i + 1)
        (slotHeader d (slotOff (walkIdx latest i))) rem₂ (acc ++ [rec])
        (fun t ht => by
          have := hptr (t + 1) (by omega)
          have ha1 : i + (t + 1) = i + 1 + t := by omega
          rwa [ha1] at this)
        (fun t ht => by
          have := hstep (t + 1) (by omega)
          have ha1 : i + (t + 1) = i + 1 + t := by omega
          rwa [ha1] at this)
        (by
          have := hchain 0 (by omega) (by omega)
          simp only [Nat.add_zero] at this
          exact Or.inr this)
        (fun t ht ht2 => by
          have := hchain (t + 1) (by omega) (by omega)
          have ha1 : i + (t + 1) = i + 1 + t := by omega
          rwa [ha1] at this)
        (by
          have ha1 : i + (m + 1) = i + 1 + m := by omega
          rwa [ha1] at hmatch)
    refine ⟨rec :: L, ?_, ?_, by simp [hlen]⟩
    · have harith : m + 1 + (fuelRest + 1) = (m + (fuelRest + 1)) + 1 := by omega
      rw [harith, heq, hL, List.append_assoc]
      simp
    · simp only [List.map_cons, hmap, htake, walkSlots]

theorem u16_bytes (d : Nat → Nat) (off v : Nat) (h : array_uint16_le d off = v)
    (hv : v < 65536) : byteAt d off = v % 256 ∧ byteAt d (off + 1) = v / 256 := by
  have h0 := byteAt_lt d off
  have h1 := byteAt_lt d (off + 1)
  simp only [array_uint16_le] at h
  omega

theorem array_isequal_82_false (d : Nat → Nat) (off : Nat)
    (h : byteAt d off ≠ 255) :
    array_isequal d off RB_LOGBOOK_SIZE 0xFF = false := by
  rw [show RB_LOGBOOK_SIZE = 81 + 1 from rfl]
  simp [array_isequal, h]

theorem scan_three (d : Nat → Nat)
    (h5 : array_uint16_le d (slotOff 0) = 5)
    (h6 : array_uint16_le d (slotOff 1) = 6)
    (h7 : array_uint16_le d (slotOff 2) = 7)
    (hFF : array_isequal d (slotOff 3) RB_LOGBOOK_SIZE 0xFF = true) :
    scanLogbook d RB_LOGBOOK_COUNT 0 0 0 0 = (3, 2) := by
  have hb0 : byteAt d (slotOff 0) = 5 := by
    have := (u16_bytes d _ _ h5 (by norm_num)).1; simpa using this
  have hb1 : byteAt d (slotOff 1) = 6 := by
    have := (u16_bytes d _ _ h6 (by norm_num)).1; simpa using this
  have hb2 : byteAt d (slotOff 2) = 7 := by
    have := (u16_bytes d _ _ h7 (by norm_num)).1; simpa using this
  have e0 := array_isequal_82_false d (slotOff 0) (by omega)
  have e1 := array_isequal_82_false d (slotOff 1) (by omega)
  have e2 := array_isequal_82_false d (slotOff 2) (by omega)
  rw [show RB_LOGBOOK_COUNT = 59 + 1 from rfl, scanLogbook]
  rw [if_neg (by simp [e0]), h5, if_neg (by norm_num), if_pos (by norm_num)]
  norm_num
  rw [show (59 : Nat) = 58 + 1 from rfl, scanLogbook]
  rw [if_neg (by simp [e1]), h6, if_neg (by norm_num), if_pos (by norm_num)]
  norm_num
  rw [show (58 : Nat) = 57 + 1 from rfl, scanLogbook]
  rw [if_neg (by simp [e2]), h7, if_neg (by norm_num), if_pos (by norm_num)]
  norm_num
  rw [show (57 : Nat) = 56 + 1 from rfl, scanLogbook]
  rw [if_pos (by simp [hFF])]

theorem take_two_of_bytes (d : Nat → Nat) (off : Nat) :
    (bytesFrom d off RB_LOGBOOK_SIZE).take 2 = [byteAt d off, byteAt d (off + 1)] := rfl

/-- C1 (amended): when the three written slots at physical indices 0, 1, 2
carry counters 5, 6, 7 in increasing physical order (the order a circular
logbook is written in), followed by a never-written slot, and the discovered
slots are structurally consistent (in-range pointers, walk continuity, profile
echo) with identifiers distinct from the all-zero pattern, then
cressi_leonardo_extract_dives with the empty fingerprint invokes the
always-continuing consumer exactly three times, emitting the dive records in
counter order 7, 6, 5 (each record's first two bytes are the little-endian
counter). -/
theorem C1_ordered_counters (d : Nat → Nat) (cb : List Nat → List Nat → Bool)
    (h5 : array_uint16_le d (slotOff 0) = 5)
    (h6 : array_uint16_le d (slotOff 1) = 6)
    (h7 : array_uint16_le d (slotOff 2) = 7)
    (hFF : array_isequal d (slotOff 3) RB_LOGBOOK_SIZE 0xFF = true)
    (hptr : ∀ t, t < 3 → ptrOK d 2 t)
    (hstep : ∀ t, t < 3 → stepOK d (some (List.replicate 5 0)) 2 t)
    (hchain : ∀ t, t < 3 → t + 1 < 3 →
      slotHeader d (slotOff (walkIdx 2 t)) =
        slotFooter d (slotOff (walkIdx 2 (t + 1))) + 2)
    (hcb : ∀ r s, cb r s = true) :
    ∃ L, cressi_leonardo_extract_dives d SZ_MEMORY (some (List.replicate 5 0)) cb =
        (DcStatus.success, L) ∧
      L.length = 3 ∧ L.map (fun r => r.take 2) = [[7, 0], [6, 0], [5, 0]] := by
  have hscan := scan_three d h5 h6 h7 hFF
  obtain ⟨L, hL, hmap⟩ :=
    walkEnd d (some (List.replicate 5 0)) cb 2 hcb 3 0 0
      (RB_PROFILE_END - RB_PROFILE_BEGIN) []
      (fun t ht => by have := hptr t ht; simpa using this)
      (fun t ht => by have := hstep t ht; simpa using this)
      (fun _ => Or.inl rfl)
      (fun t ht ht2 => by have := hchain t ht ht2; simpa using this)
  have hws : walkSlots d 2 0 3 =
      [bytesFrom d (slotOff 2) RB_LOGBOOK_SIZE,
       bytesFrom d (slotOff 1) RB_LOGBOOK_SIZE,
       bytesFrom d (slotOff 0) RB_LOGBOOK_SIZE] := rfl
  have hlen : L.length = 3 := by
    have := congrArg List.length hmap
    simpa [hws] using this
  have hextract : cressi_leonardo_extract_dives d SZ_MEMORY
      (some (List.replicate 5 0)) cb = (DcStatus.success, L) := by
    rw [cressi_leonardo_extract_dives, if_neg (lt_irrefl _), hscan]
    simpa using hL
  obtain ⟨a, b, c, rfl⟩ := List.length_eq_three.mp hlen
  rw [hws] at hmap
  simp only [List.map_cons, List.map_nil, List.cons.injEq, and_true] at hmap
  obtain ⟨ha, hb, hc⟩ := hmap
  refine ⟨[a, b, c], hextract, rfl, ?_⟩
  have h2a : a.take 2 = [7, 0] := by
    have : a.take 2 = (a.take RB_LOGBOOK_SIZE).take 2 := by
      rw [List.take_take, show (2 ⊓ RB_LOGBOOK_SIZE) = 2 by decide]
    rw [this, ha, take_two_of_bytes]
    have := u16_bytes d _ _ h7 (by norm_num)
    simp only [show (7:Nat) % 256 = 7 from rfl, show (7:Nat) / 256 = 0 from rfl] at this
    rw [this.1, this.2]
  have h2b : b.take 2 = [6, 0] := by
    have : b.take 2 = (b.take RB_LOGBOOK_SIZE).take 2 := by
      rw [List.take_take, show (2 ⊓ RB_LOGBOOK_SIZE) = 2 by decide]
    rw [this, hb, take_two_of_bytes]
    have := u16_bytes d _ _ h6 (by norm_num)
    simp only [show (6:Nat) % 256 = 6 from rfl, show (6:Nat) / 256 = 0 from rfl] at this
    rw [this.1, this.2]
  have h2c : c.take 2 = [5, 0] := by
    have : c.take 2 = (c.take RB_LOGBOOK_SIZE).take 2 := by
      rw [List.take_take, show (2 ⊓ RB_LOGBOOK_SIZE) = 2 by decide]
    rw [this, hc, take_two_of_bytes]
    have := u16_bytes d _ _ h5 (by norm_num)
    simp only [show (5:Nat) % 256 = 5 from rfl, show (5:Nat) / 256 = 0 from rfl] at this
    rw [this.1, this.2]
  simp [h2a, h2b, h2c]

/-- C4 (amended): for every memory image whose logbook scan discovers
`count` slots with most-recent index `latest`, and every non-empty fingerprint
F matching the identifier of the slot at backward-walk position `m < count`
with no earlier (logically newer) slot carrying F, provided the walk's
structural checks (in-range pointers, inter-dive continuity, profile echo)
pass down to position `m` and the consumer keeps continuing, the extractor
invokes the consumer exactly once per logically newer slot, in
most-recent-first walk order, and never for the matching slot or anything
older. -/
theorem C4_fingerprint_boundary (d : Nat → Nat) (cb : List Nat → List Nat → Bool) (F : List Nat)
    (count latest m : Nat)
    (hF : F ≠ List.replicate 5 0)
    (hscan : scanLogbook d RB_LOGBOOK_COUNT 0 0 0 0 = (count, latest))
    (hm : m < count)
    (hptr : ∀ t, t ≤ m → ptrOK d latest t)
    (hstep : ∀ t, t < m → stepOK d (some F) latest t)
    (hchain : ∀ t, t ≤ m → t + 1 ≤ m →
      slotHeader d (slotOff (walkIdx latest t)) =
        slotFooter d (slotOff (walkIdx latest (t + 1))) + 2)
    (hmatch : fpMatches d (slotOff (walkIdx latest m) + 8) (some F) = true)
    (hcb : ∀ r s, cb r s = true) :
    ∃ L, cressi_leonardo_extract_dives d SZ_MEMORY (some F) cb =
        (DcStatus.success, L) ∧
      L.map (fun r => r.take RB_LOGBOOK_SIZE) = walkSlots d latest 0 m ∧
      L.length = m := by
  obtain ⟨k, hk⟩ : ∃ k, count = m + (k + 1) := ⟨count - m - 1, by omega⟩
  obtain ⟨L, hL, hmap, hlen⟩ :=
    walkFp d (some F) cb latest hcb m k 0 0 (RB_PROFILE_END - RB_PROFILE_BEGIN) []
      (fun t ht => by have := hptr t ht; simpa using this)
      (fun t ht => by have := hstep t ht; simpa using this)
      (Or.inl rfl)
      (fun t ht ht2 => by have := hchain t ht ht2; simpa using this)
      (by simpa using hmatch)
  refine ⟨L, ?_, hmap, hlen⟩
  rw [cressi_leonardo_extract_dives, if_neg (lt_irrefl _), hscan, hk]
  simpa using hL

/-- C5 (amended): with the empty (all-zero) fingerprint, extraction emits
every discovered dive — one consumer invocation per discovered slot, in walk
order — provided no discovered slot's embedded identifier equals the all-zero
pattern (such an identifier matches the stored empty fingerprint and stops the
walk), the image is structurally consistent, and the consumer keeps
continuing. -/
theorem C5_empty_fingerprint (d : Nat → Nat) (cb : List Nat → List Nat → Bool)
    (count latest : Nat)
    (hscan : scanLogbook d RB_LOGBOOK_COUNT 0 0 0 0 = (count, latest))
    (hptr : ∀ t, t < count → ptrOK d latest t)
    (hstep : ∀ t, t < count → stepOK d (some (List.replicate 5 0)) latest t)
    (hchain : ∀ t, t < count → t + 1 < count →
      slotHeader d (slotOff (walkIdx latest t)) =
        slotFooter d (slotOff (walkIdx latest (t + 1))) + 2)
    (hcb : ∀ r s, cb r s = true) :
    ∃ L, cressi_leonardo_extract_dives d SZ_MEMORY
        (some (List.replicate 5 0)) cb = (DcStatus.success, L) ∧
      L.map (fun r => r.take RB_LOGBOOK_SIZE) = walkSlots d latest 0 count ∧
      L.length = count := by
  obtain ⟨L, hL, hmap⟩ :=
    walkEnd d (some (List.replicate 5 0)) cb latest hcb count 0 0
      (RB_PROFILE_END - RB_PROFILE_BEGIN) []
      (fun t ht => by have := hptr t ht; simpa using this)
      (fun t ht => by have := hstep t ht; simpa using this)
      (fun _ => Or.inl rfl)
      (fun t ht ht2 => by have := hchain t ht ht2; simpa using this)
  refine ⟨L, ?_, hmap, ?_⟩
  · rw [cressi_leonardo_extract_dives, if_neg (lt_irrefl _), hscan]
    simpa using hL
  · have := congrArg List.length hmap
    simpa [walkSlots_length] using this

/-- C2 (amended): the value recorded from the previous iteration's dive is
its header pointer, and in every iteration in which that value is nonzero it
must equal the current dive's footer pointer plus 2: a mismatch makes the
extraction return DataFormat without emitting the current dive, while an
emitting iteration recurses with the current header as the new previous
value. -/
theorem C2_continuity (d : Nat → Nat) (fp : Option (List Nat))
    (cb : List Nat → List Nat → Bool) (latest fuel i previous remaining : Nat)
    (acc : List (List Nat)) (hptr : ptrOK d latest i) :
    (previous ≠ 0 → previous ≠ slotFooter d (slotOff (walkIdx latest i)) + 2 →
      extractLoop d fp cb latest (fuel + 1) i previous remaining acc =
        (DcStatus.dataformat, acc)) ∧
    (stepOK d fp latest i →
      (previous = 0 ∨ previous = slotFooter d (slotOff (walkIdx latest i)) + 2) →
      (∀ r s, cb r s = true) →
      ∃ rec rem₂,
        extractLoop d fp cb latest (fuel + 1) i previous remaining acc =
          extractLoop d fp cb latest fuel (i + 1)
            (slotHeader d (slotOff (walkIdx latest i))) rem₂ (acc ++ [rec])) := by
  constructor
  · intro hne0 hne
    obtain ⟨hb1, hb2, hb3, hb4⟩ := hptr
    rw [extractLoop, if_neg (by omega), if_pos ⟨hne0, hne⟩]
  · intro hstep hprev hcb
    obtain ⟨rec, rem₂, heq, _⟩ :=
      extract_step d fp cb latest fuel i previous remaining acc hptr hstep hprev hcb
    exact ⟨rec, rem₂, heq⟩

/-- C6: in every iteration whose remaining scratch capacity cannot hold the
profile length (circular header-to-footer distance minus 2) plus the 4-byte
bookkeeping margin, the extractor does not fail: the consumer receives the 82
logbook-slot bytes alone — a record with zero-length profile — and the walk
continues (with remaining capacity 0) rather than returning an error. -/
theorem C6_graceful_degradation (d : Nat → Nat) (fp : Option (List Nat))
    (cb : List Nat → List Nat → Bool) (latest fuel i previous remaining : Nat)
    (acc : List (List Nat))
    (hptr : ptrOK d latest i)
    (hprev : previous = 0 ∨ previous = slotFooter d (slotOff (walkIdx latest i)) + 2)
    (hfp : fpMatches d (slotOff (walkIdx latest i) + 8) fp = false)
    (hcap : ¬(remaining ≠ 0 ∧
      (profLen d (slotOff (walkIdx latest i)) + 4) % M32 ≤ remaining)) :
    extractLoop d fp cb latest (fuel + 1) i previous remaining acc =
      (if cb (bytesFrom d (slotOff (walkIdx latest i)) RB_LOGBOOK_SIZE)
            (slotId d (slotOff (walkIdx latest i))) then
        extractLoop d fp cb latest fuel (i + 1)
          (slotHeader d (slotOff (walkIdx latest i))) 0
          (acc ++ [bytesFrom d (slotOff (walkIdx latest i)) RB_LOGBOOK_SIZE])
      else
        (DcStatus.success,
          acc ++ [bytesFrom d (slotOff (walkIdx latest i)) RB_LOGBOOK_SIZE])) ∧
    (bytesFrom d (slotOff (walkIdx latest i)) RB_LOGBOOK_SIZE).length =
      RB_LOGBOOK_SIZE := by
  obtain ⟨hb1, hb2, hb3, hb4⟩ := hptr
  constructor
  · rw [extractLoop, if_neg (by omega),
      if_neg (by rcases hprev with h | h <;> simp [h]),
      if_neg (by simp [hfp]), if_neg hcap]
  · exact bytesFrom_length d RB_LOGBOOK_SIZE _

theorem transferAux_success (b : Nat → DcStatus) (m K : Nat)
    (hK : K ≤ m)
    (hpre : ∀ j, j < K → b j = DcStatus.protocol ∨ b j = DcStatus.timeout)
    (hS : b K = DcStatus.success) :
    ∀ fuel k, k ≤ K → K < k + fuel →
      transferAux b m k fuel = (DcStatus.success, K + 1)
  | 0, k, hk, hf => by omega
  | fuel + 1, k, hk, hf => by
    by_cases hkK : k = K
    · subst hkK
      rw [transferAux, if_pos hS, hS]
    · have hb := hpre k (by omega)
      rw [transferAux, if_neg (by rcases hb with h | h <;> simp [h]),
        if_neg (by rcases hb with h | h <;> simp [h]), if_neg (by omega)]
      exact transferAux_success b m K hK hpre hS fuel (k + 1) (by omega) (by omega)

theorem transferAux_budget (b : Nat → DcStatus) (m : Nat)
    (hall : ∀ j, j ≤ m → b j = DcStatus.protocol) :
    ∀ fuel k, k ≤ m → m < k + fuel →
      transferAux b m k fuel = (DcStatus.protocol, m + 1)
  | 0, k, hk, hf => by omega
  | fuel + 1, k, hk, hf => by
    have hb := hall k hk
    by_cases hkm : k = m
    · subst hkm
      rw [transferAux, if_neg (by simp [hb]), if_neg (by simp [hb]),
        if_pos (le_refl k), hb]
    · rw [transferAux, if_neg (by simp [hb]), if_neg (by simp [hb]),
        if_neg (by omega)]
      exact transferAux_budget b m hall fuel (k + 1) (by omega) (by omega)

theorem transferAux_immediate (b : Nat → DcStatus) (m K : Nat)
    (hK : K ≤ m)
    (hpre : ∀ j, j < K → b j = DcStatus.protocol ∨ b j = DcStatus.timeout)
    (h1 : b K ≠ DcStatus.success) (h2 : b K ≠ DcStatus.protocol)
    (h3 : b K ≠ DcStatus.timeout) :
    ∀ fuel k, k ≤ K → K < k + fuel → transferAux b m k fuel = (b K, K + 1)
  | 0, k, hk, hf => by omega
  | fuel + 1, k, hk, hf => by
    by_cases hkK : k = K
    · subst hkK
      rw [transferAux, if_neg h1, if_pos ⟨h2, h3⟩]
    · have hb := hpre k (by omega)
      rw [transferAux, if_neg (by rcases hb with h | h <;> simp [h]),
        if_neg (by rcases hb with h | h <;> simp [h]), if_neg (by omega)]
      exact transferAux_immediate b m K hK hpre h1 h2 h3 fuel (k + 1)
        (by omega) (by omega)

theorem transferAux_le (b : Nat → DcStatus) (m : Nat) :
    ∀ fuel k, k ≤ m → (transferAux b m k fuel).2 ≤ m + 1
  | 0, k, hk => by rw [transferAux]; simpa using by omega
  | fuel + 1, k, hk => by
    rw [transferAux]
    by_cases h1 : b k = DcStatus.success
    · rw [if_pos h1]; simpa using by omega
    rw [if_neg h1]
    by_cases h2 : b k ≠ DcStatus.protocol ∧ b k ≠ DcStatus.timeout
    · rw [if_pos h2]; simpa using by omega
    rw [if_neg h2]
    by_cases h3 : m ≤ k
    · rw [if_pos h3]; simpa using by omega
    rw [if_neg h3]
    exact transferAux_le b m fuel (k + 1) (by omega)

theorem uwatecLoop_zero (d : Nat → Nat) (cb : Nat → Nat → Bool) :
    ∀ fuel previous acc,
      uwatecLoop d cb fuel 0 previous acc = (DcStatus.success, acc)
  | 0, _, _ => rfl
  | fuel + 1, previous, acc => by rw [uwatecLoop, if_pos rfl]

theorem uwatecLoop_good (d : Nat → Nat) (cb : Nat → Nat → Bool) :
    ∀ fuel current previous acc, current ≤ previous →
      ∃ st tail, uwatecLoop d cb fuel current previous acc = (st, acc ++ tail) ∧
        goodChain d previous tail
  | 0, current, previous, acc, _ =>
    ⟨DcStatus.success, [], by simp [uwatecLoop], trivial⟩
  | fuel + 1, current, previous, acc, hcp => by
    rw [uwatecLoop]
    by_cases h0 : current = 0
    · rw [if_pos h0]
      exact ⟨DcStatus.success, [], by simp, trivial⟩
    rw [if_neg h0]
    by_cases hm : markerAt d (current - 1)
    · rw [if_pos hm]
      by_cases hov : previous < ((current - 1) + array_uint32_le d ((current - 1) + 4)) % M32
      · rw [if_pos hov]
        exact ⟨DcStatus.dataformat, [], by simp, trivial⟩
      rw [if_neg hov]
      by_cases hcb : cb (current - 1) (array_uint32_le d ((current - 1) + 4))
      · rw [if_pos hcb]
        obtain ⟨st, tail, heq, hchain⟩ :=
          uwatecLoop_good d cb fuel (if 4 ≤ current - 1 then current - 1 - 4 else 0)
            (current - 1) (acc ++ [(current - 1, array_uint32_le d ((current - 1) + 4))])
            (by split <;> omega)
        refine ⟨st, (current - 1, array_uint32_le d ((current - 1) + 4)) :: tail, ?_, ?_⟩
        · rw [heq, List.append_assoc]; simp
        · exact ⟨hm, le_of_not_lt hov, by omega, hchain⟩
      · rw [if_neg hcb]
        exact ⟨_, [(current - 1, array_uint32_le d ((current - 1) + 4))], rfl,
          hm, le_of_not_lt hov, by omega, trivial⟩
    · rw [if_neg hm]
      exact uwatecLoop_good d cb fuel (current - 1) previous acc (by omega)

/-- C1 counterexample: the image `imgC1` realises the claim's layout exactly —
three written slots at physical indices 0, 1, 2 with internal counters 5, 7, 6,
never-written slots beyond, non-overlapping profiles continuous in logical
(counter) order, echo-consistent, identifiers not all-zero, empty caller
fingerprint — yet the extractor invokes the consumer only once and returns
DataFormat instead of emitting 7, 6, 5: the backward walk proceeds from the
maximum-counter slot in physical circular order, not counter order, so its
second step lands on the counter-5 slot and the continuity check fails. -/
theorem C1_counterexample :
    array_uint16_le imgC1 (slotOff 0) = 5 ∧
    array_uint16_le imgC1 (slotOff 1) = 7 ∧
    array_uint16_le imgC1 (slotOff 2) = 6 ∧
    array_isequal imgC1 (slotOff 3) RB_LOGBOOK_SIZE 0xFF = true ∧
    (cressi_leonardo_extract_dives imgC1 SZ_MEMORY (some (List.replicate 5 0)) cbTrue).1 =
      DcStatus.dataformat ∧
    (cressi_leonardo_extract_dives imgC1 SZ_MEMORY (some (List.replicate 5 0)) cbTrue).2.length = 1 := by
  decide

/-- C2 counterexample: on `imgOrdered` the second walk iteration has a
previous-iteration dive whose footer is 5210 while the current dive's footer
plus 2 is 5200 — the equality the claim demands fails — yet extraction
succeeds and emits all three dives: the code records the previous dive's
header pointer (cressi_leonardo.c line 547), not its footer pointer. -/
theorem C2_counterexample :
    slotFooter imgOrdered (slotOff (walkIdx 2 0)) = 5210 ∧
    slotFooter imgOrdered (slotOff (walkIdx 2 1)) + 2 = 5200 ∧
    (5210 : Nat) ≠ 5200 ∧
    (cressi_leonardo_extract_dives imgOrdered SZ_MEMORY (some (List.replicate 5 0)) cbTrue).1 =
      DcStatus.success ∧
    (cressi_leonardo_extract_dives imgOrdered SZ_MEMORY (some (List.replicate 5 0)) cbTrue).2.length = 3 := by
  decide

/-- C4 counterexample: on `imgBadNew` the non-empty fingerprint equals the
identifier of the logically older slot and no logically newer slot carries it,
but the newer slot's header/footer pointers are out of range: extraction
returns DataFormat with zero consumer invocations instead of emitting the one
logically newer slot. -/
theorem C4_counterexample :
    slotId imgBadNew (slotOff 1) = [9, 0, 0, 0, 0] ∧
    slotId imgBadNew (slotOff 0) ≠ [9, 0, 0, 0, 0] ∧
    ([9, 0, 0, 0, 0] : List Nat) ≠ List.replicate 5 0 ∧
    scanLogbook imgBadNew RB_LOGBOOK_COUNT 0 0 0 0 = (2, 0) ∧
    cressi_leonardo_extract_dives imgBadNew SZ_MEMORY (some [9, 0, 0, 0, 0]) cbTrue =
      (DcStatus.dataformat, []) := by
  decide

/-- C5 counterexample: `imgZeroId` holds one structurally valid discovered
dive whose embedded identifier is five zero bytes; with the empty fingerprint
(stored as five zero bytes) extraction terminates at the fingerprint-match
boundary and the consumer is never invoked. -/
theorem C5_counterexample :
    scanLogbook imgZeroId RB_LOGBOOK_COUNT 0 0 0 0 = (1, 0) ∧
    cressi_leonardo_extract_dives imgZeroId SZ_MEMORY (some (List.replicate 5 0)) cbTrue =
      (DcStatus.success, []) := by
  decide

/-- C3 counterexample: with the claim's attempt sequence (first three
attempts fail with Protocol, the fourth succeeds) and a maximum-retries bound
of 3, the transfer succeeds after 4 attempts instead of failing with
Protocol: `nretries++ >= MAXRETRIES` admits `MAXRETRIES + 1` packet attempts
in total. -/
theorem C3_counterexample :
    cressi_leonardo_transfer exAttempts 3 = (DcStatus.success, 4) ∧
    DcStatus.success ≠ DcStatus.protocol := by decide

/-- C9 counterexample: with a configured timeout of 1000 ms, dc_socket_read
passes a bounded timeval (1 s, 0 us) to select, but dc_socket_write passes the
NULL pointer (socket.c line 298) — the write readiness wait is not bounded by
the handle's configured timeout. -/
theorem C9_counterexample :
    dc_socket_write_selarg 1000 = SelArg.infinite ∧
    dc_socket_read_selarg 1000 = SelArg.bounded 1 0 ∧
    SelArg.infinite ≠ SelArg.bounded 1 0 := by decide

/-- C3 (amended): for an attempt sequence whose first three attempts fail
with Protocol and whose fourth succeeds, the transfer with bound 4 (the source
`MAXRETRIES`) succeeds using the 4th response; the bound that makes this
scenario fail with Protocol is 2 (after exactly 3 attempts), since the bound
counts retries beyond the initial attempt; and any status other than Protocol
or Timeout is propagated immediately, with no attempt after it. -/
theorem C3_retry_budget (attempts : Nat → DcStatus)
    (h3 : ∀ k, k < 3 → attempts k = DcStatus.protocol)
    (h4 : attempts 3 = DcStatus.success) :
    cressi_leonardo_transfer attempts MAXRETRIES = (DcStatus.success, 4) ∧
    cressi_leonardo_transfer attempts 2 = (DcStatus.protocol, 3) ∧
    ∀ (b : Nat → DcStatus) (m K : Nat), K ≤ m →
      (∀ j, j < K → b j = DcStatus.protocol ∨ b j = DcStatus.timeout) →
      b K ≠ DcStatus.success → b K ≠ DcStatus.protocol → b K ≠ DcStatus.timeout →
      cressi_leonardo_transfer b m = (b K, K + 1) := by
  refine ⟨?_, ?_, ?_⟩
  · have := transferAux_success attempts MAXRETRIES 3 (by norm_num [MAXRETRIES])
      (fun j hj => Or.inl (h3 j hj)) h4 (MAXRETRIES + 1) 0 (by omega)
      (by norm_num [MAXRETRIES])
    simpa [cressi_leonardo_transfer] using this
  · have := transferAux_budget attempts 2 (fun j hj => h3 j (by omega)) 3 0
      (by omega) (by omega)
    simpa [cressi_leonardo_transfer] using this
  · intro b m K hK hpre h1 h2 h3'
    have := transferAux_immediate b m K hK hpre h1 h2 h3' (m + 1) 0
      (by omega) (by omega)
    simpa [cressi_leonardo_transfer] using this

/-- C3 witness: the amended theorem applied to the concrete attempt
sequence `exAttempts` and to an immediately-failing sequence. -/
theorem C3_retry_budget_witness :
    cressi_leonardo_transfer exAttempts MAXRETRIES = (DcStatus.success, 4) ∧
    cressi_leonardo_transfer exAttempts 2 = (DcStatus.protocol, 3) ∧
    cressi_leonardo_transfer (fun _ => DcStatus.io) 4 = (DcStatus.io, 1) := by
  have h := C3_retry_budget exAttempts (by intro k hk; interval_cases k <;> decide) (by decide)
  exact ⟨h.1, h.2.1,
    h.2.2 (fun _ => DcStatus.io) 4 0 (by omega) (by omega) (by decide) (by decide) (by decide)⟩

/-- C7: for both families, a nonzero size different from the fixed
fingerprint length (5 bytes for Cressi Leonardo, 4 for Uwatec Smart) yields
InvalidArgs and leaves the stored state exactly as it was; the exact length
stores the given bytes (Uwatec Smart keeps them as the little-endian 32-bit
decode); size 0 resets to the empty default. -/
theorem C7_set_fingerprint (ss : List Nat) (ts : Nat) (data : List Nat) (size : Nat) :
    (size ≠ 0 → size ≠ 5 →
      cressi_leonardo_device_set_fingerprint ss data size = (DcStatus.invalidargs, ss)) ∧
    (size ≠ 0 → size ≠ 4 →
      uwatec_smart_device_set_fingerprint ts data size = (DcStatus.invalidargs, ts)) ∧
    cressi_leonardo_device_set_fingerprint ss data 5 = (DcStatus.success, data.take 5) ∧
    uwatec_smart_device_set_fingerprint ts data 4 =
      (DcStatus.success, data.getD 0 0 % 256 + 256 * (data.getD 1 0 % 256) +
        65536 * (data.getD 2 0 % 256) + 16777216 * (data.getD 3 0 % 256)) ∧
    cressi_leonardo_device_set_fingerprint ss data 0 =
      (DcStatus.success, List.replicate 5 0) ∧
    uwatec_smart_device_set_fingerprint ts data 0 = (DcStatus.success, 0) := by
  refine ⟨?_, ?_, ?_, ?_, ?_, ?_⟩
  · intro h1 h2
    rw [cressi_leonardo_device_set_fingerprint, if_pos ⟨h1, h2⟩]
  · intro h1 h2
    rw [uwatec_smart_device_set_fingerprint, if_pos ⟨h1, h2⟩]
  · rw [cressi_leonardo_device_set_fingerprint, if_neg (by norm_num),
      if_pos (by norm_num)]
  · rw [uwatec_smart_device_set_fingerprint, if_neg (by norm_num),
      if_pos (by norm_num)]
  · rw [cressi_leonardo_device_set_fingerprint, if_neg (by norm_num),
      if_neg (by norm_num)]
  · rw [uwatec_smart_device_set_fingerprint, if_neg (by norm_num),
      if_neg (by norm_num)]

/-- C7 witness: the theorem applied at size 7 (rejected, state intact),
size 5 (stored) and size 0 (reset). -/
theorem C7_set_fingerprint_witness :
    cressi_leonardo_device_set_fingerprint [1, 2, 3, 4, 5] [9, 9, 9, 9, 9] 7 =
      (DcStatus.invalidargs, [1, 2, 3, 4, 5]) ∧
    uwatec_smart_device_set_fingerprint 77 [9, 9, 9, 9, 9] 7 =
      (DcStatus.invalidargs, 77) ∧
    cressi_leonardo_device_set_fingerprint [1, 2, 3, 4, 5] [9, 8, 7, 6, 5] 5 =
      (DcStatus.success, [9, 8, 7, 6, 5]) ∧
    cressi_leonardo_device_set_fingerprint [1, 2, 3, 4, 5] [] 0 =
      (DcStatus.success, List.replicate 5 0) := by
  have h1 := C7_set_fingerprint [1, 2, 3, 4, 5] 77 ([9, 9, 9, 9, 9] : List Nat) 7
  have h2 := C7_set_fingerprint [1, 2, 3, 4, 5] 77 ([9, 8, 7, 6, 5] : List Nat) 7
  have h3 := C7_set_fingerprint [1, 2, 3, 4, 5] 77 ([] : List Nat) 7
  exact ⟨h1.1 (by decide) (by decide), h1.2.1 (by decide) (by decide),
    by simpa using h2.2.2.1, h3.2.2.2.2.1⟩

/-- C8: in dc_socket_read, interrupted (EINTR) and would-block (EAGAIN)
iterations are retried transparently and never surfaced; a readiness-wait
expiry or a zero-byte recv (peer half-close) ends the loop with the count
transferred so far stored in the out-parameter and a Timeout status when fewer
than the requested bytes moved; a successful recv advances the count. -/
theorem C8_socket_read_timeouts (size : Nat) (script : List ReadEvent) (nb n : Nat) :
    dc_socket_read_loop size (ReadEvent.sIntr :: script) nb =
      dc_socket_read_loop size script nb ∧
    dc_socket_read_loop size (ReadEvent.rIntr :: script) nb =
      dc_socket_read_loop size script nb ∧
    (nb < size → dc_socket_read_loop size (ReadEvent.sTimeout :: script) nb =
      some (DcStatus.timeout, nb)) ∧
    (nb < size → dc_socket_read_loop size (ReadEvent.rData 0 :: script) nb =
      some (DcStatus.timeout, nb)) ∧
    (nb < size → dc_socket_read_loop size (ReadEvent.rData (n + 1) :: script) nb =
      dc_socket_read_loop size script (nb + (n + 1))) ∧
    (0 < size → dc_socket_read size (ReadEvent.sTimeout :: script) =
      some (DcStatus.timeout, 0)) := by
  refine ⟨?_, ?_, ?_, ?_, ?_, ?_⟩
  · by_cases h : nb < size
    · conv_lhs => rw [dc_socket_read_loop]
      rw [if_pos h]
    · conv_lhs => rw [dc_socket_read_loop.eq_def]
      conv_rhs => rw [dc_socket_read_loop.eq_def]
      simp [h]
  · by_cases h : nb < size
    · conv_lhs => rw [dc_socket_read_loop]
      rw [if_pos h]
    · conv_lhs => rw [dc_socket_read_loop.eq_def]
      conv_rhs => rw [dc_socket_read_loop.eq_def]
      simp [h]
  · intro h
    rw [dc_socket_read_loop, if_pos h]
    simp [finishRead, Nat.ne_of_lt h]
  · intro h
    rw [dc_socket_read_loop, if_pos h]
    simp [finishRead, Nat.ne_of_lt h]
  · intro h
    rw [dc_socket_read_loop, if_pos h]
  · intro h
    rw [dc_socket_read, dc_socket_read_loop, if_pos h]
    simp [finishRead, Nat.ne_of_lt h]

/-- C8 witness: the theorem applied at size 4 with short transfers of 1
and 2 bytes. -/
theorem C8_socket_read_timeouts_witness :
    (1 < 4 ∧ dc_socket_read_loop 4 [ReadEvent.sTimeout] 1 = some (DcStatus.timeout, 1)) ∧
    (2 < 4 ∧ dc_socket_read_loop 4 [ReadEvent.rData 0] 2 = some (DcStatus.timeout, 2)) ∧
    dc_socket_read_loop 4 [ReadEvent.sIntr, ReadEvent.sTimeout] 1 =
      dc_socket_read_loop 4 [ReadEvent.sTimeout] 1 ∧
    dc_socket_read 4 [ReadEvent.sTimeout] = some (DcStatus.timeout, 0) :=
  ⟨⟨by decide, (C8_socket_read_timeouts 4 [] 1 0).2.2.1 (by decide)⟩,
    ⟨by decide, (C8_socket_read_timeouts 4 [] 2 0).2.2.2.1 (by decide)⟩,
    (C8_socket_read_timeouts 4 [ReadEvent.sTimeout] 1 0).1,
    (C8_socket_read_timeouts 4 [] 0 0).2.2.2.2.2 (by decide)⟩

/-- C9 (amended): dc_socket_read's select timeout is never NULL for a
non-negative configured timeout, dc_socket_write's select timeout is the NULL
pointer for every configured timeout (its wait is unbounded), and the framing
retry loop is bounded by a fixed attempt count (`maxretries + 1`). -/
theorem C9_wait_bounds :
    (∀ t : Int, 0 ≤ t → dc_socket_read_selarg t ≠ SelArg.infinite) ∧
    (∀ t : Int, dc_socket_write_selarg t = SelArg.infinite) ∧
    (∀ (attempts : Nat → DcStatus) (m : Nat),
      (cressi_leonardo_transfer attempts m).2 ≤ m + 1) := by
  refine ⟨?_, fun _ => rfl, ?_⟩
  · intro t ht
    rw [dc_socket_read_selarg]
    by_cases h1 : 0 < t
    · rw [if_pos h1]; simp
    · rw [if_neg h1, if_pos (by omega)]; simp
  · intro attempts m
    exact transferAux_le attempts m (m + 1) 0 (by omega)

/-- C9 witness: the amended theorem applied at a configured timeout of 5 ms
and to the concrete attempt sequence `exAttempts`. -/
theorem C9_wait_bounds_witness :
    (0 : Int) ≤ 5 ∧ dc_socket_read_selarg 5 ≠ SelArg.infinite ∧
    dc_socket_write_selarg 5 = SelArg.infinite ∧
    (cressi_leonardo_transfer exAttempts 3).2 ≤ 4 :=
  ⟨by decide, C9_wait_bounds.1 5 (by decide), C9_wait_bounds.2.1 5, C9_wait_bounds.2.2 exAttempts 3⟩

/-- C10 counterexample: on the stream `imgWrap` the outer record (start 12,
length 4) is emitted first; the inner marker at offset 1 carries embedded
length 0xFFFFFFFF, whose unwrapped extent 1 + 0xFFFFFFFF overruns the
previously emitted record's start 12, so by the claim the function should
return DataFormat without emitting it — but the overflow check at
uwatec_smart.c line 436 computes `current + len` in wrapping unsigned-int
arithmetic, `(1 + 0xFFFFFFFF) mod 2^32 = 0 ≤ 12`, and the overlapping record
is emitted with overall success. -/
theorem C10_counterexample :
    uwatec_smart_extract_dives imgWrap 24 cbU =
      (DcStatus.success, [(12, 4), (1, 4294967295)]) ∧
    12 < 1 + 4294967295 ∧
    DcStatus.success ≠ DcStatus.dataformat := by decide

/-- C10 (amended): every record uwatec_smart_extract_dives passes to the
consumer starts at an occurrence of the 4-byte start marker, starts strictly
below the previous bound (strictly decreasing start offsets, the bound being
the previously emitted record's start, initially the input size) and its
embedded little-endian 32-bit extent, computed in wrapping 32-bit arithmetic
as `(start + length) % 2^32` exactly as the code's overflow check does, does
not pass that bound; an input shorter than 4 bytes yields success with zero
records; and a marker whose wrapped sum would overrun the previous bound makes
the loop return DataFormat without emitting that record.  The unwrapped
no-overlap guarantee of the original claim holds only when `start + length`
stays below 2^32. -/
theorem C10_marker_invariants (d : Nat → Nat) (size : Nat) (cb : Nat → Nat → Bool) :
    goodChain d size (uwatec_smart_extract_dives d size cb).2 ∧
    (size < 4 → uwatec_smart_extract_dives d size cb = (DcStatus.success, [])) ∧
    (∀ fuel c prev acc, markerAt d c = true →
      prev < (c + array_uint32_le d (c + 4)) % M32 →
      uwatecLoop d cb (fuel + 1) (c + 1) prev acc = (DcStatus.dataformat, acc)) := by
  refine ⟨?_, ?_, ?_⟩
  · obtain ⟨st, tail, heq, hchain⟩ :=
      uwatecLoop_good d cb size (if 4 ≤ size then size - 4 else 0) size []
        (by split <;> omega)
    rw [uwatec_smart_extract_dives, heq]
    simpa using hchain
  · intro h4
    rw [uwatec_smart_extract_dives, if_neg (by omega)]
    exact uwatecLoop_zero d cb size size []
  · intro fuel c prev acc hm hov
    rw [uwatecLoop, if_neg (by omega)]
    simp only [Nat.add_sub_cancel]
    rw [if_pos hm, if_pos hov]

/-- C10 witness: the amended theorem applied to the concrete stream
`imgUwatec` (short-input conjunct at size 3, overrun conjunct at a marker with
embedded length 4, whose wrapped sum 4 exceeds the bound 2). -/
theorem C10_marker_invariants_witness :
    (3 < 4 ∧ uwatec_smart_extract_dives imgUwatec 3 cbU = (DcStatus.success, [])) ∧
    (markerAt imgUwatec 0 = true ∧
      2 < (0 + array_uint32_le imgUwatec (0 + 4)) % M32 ∧
      uwatecLoop imgUwatec cbU 1 (0 + 1) 2 [] = (DcStatus.dataformat, [])) :=
  ⟨⟨by decide, (C10_marker_invariants imgUwatec 3 cbU).2.1 (by decide)⟩,
    ⟨by decide, by decide,
      (C10_marker_invariants imgUwatec 3 cbU).2.2 0 0 2 [] (by decide) (by decide)⟩⟩

/-- C1 witness: the amended theorem applied to the concrete image
`imgOrdered`. -/
theorem C1_ordered_counters_witness :
    ∃ L, cressi_leonardo_extract_dives imgOrdered SZ_MEMORY
        (some (List.replicate 5 0)) cbTrue = (DcStatus.success, L) ∧
      L.length = 3 ∧ L.map (fun r => r.take 2) = [[7, 0], [6, 0], [5, 0]] :=
  C1_ordered_counters imgOrdered cbTrue (by decide) (by decide) (by decide) (by decide)
    (by intro t ht; interval_cases t <;> decide)
    (by intro t ht; interval_cases t <;> decide)
    (by intro t ht ht2; interval_cases t <;> first | decide | omega)
    (fun _ _ => rfl)

/-- C4 witness: the amended theorem applied to `imgOrdered` with the
fingerprint of the middle dive (counter 6), emitting exactly the counter-7
record. -/
theorem C4_fingerprint_boundary_witness :
    ∃ L, cressi_leonardo_extract_dives imgOrdered SZ_MEMORY
        (some [2, 0, 0, 0, 0]) cbTrue = (DcStatus.success, L) ∧
      L.map (fun r => r.take RB_LOGBOOK_SIZE) = walkSlots imgOrdered 2 0 1 ∧
      L.length = 1 :=
  C4_fingerprint_boundary imgOrdered cbTrue [2, 0, 0, 0, 0] 3 2 1 (by decide) (by decide)
    (by decide)
    (by intro t ht; interval_cases t <;> decide)
    (by intro t ht; interval_cases t <;> decide)
    (by intro t ht ht2; interval_cases t <;> first | decide | omega)
    (by decide) (fun _ _ => rfl)

/-- C5 witness: the amended theorem applied to `imgOrdered` (three
discovered dives, three emissions). -/
theorem C5_empty_fingerprint_witness :
    ∃ L, cressi_leonardo_extract_dives imgOrdered SZ_MEMORY
        (some (List.replicate 5 0)) cbTrue = (DcStatus.success, L) ∧
      L.map (fun r => r.take RB_LOGBOOK_SIZE) = walkSlots imgOrdered 2 0 3 ∧
      L.length = 3 :=
  C5_empty_fingerprint imgOrdered cbTrue 3 2 (by decide)
    (by intro t ht; interval_cases t <;> decide)
    (by intro t ht; interval_cases t <;> decide)
    (by intro t ht ht2; interval_cases t <;> first | decide | omega)
    (fun _ _ => rfl)

/-- C2 witness: both parts applied to `imgOrdered` at the first walk
position (previous value 9999 for the mismatch part, 0 for the emitting
part). -/
theorem C2_continuity_witness :
    (extractLoop imgOrdered (some (List.replicate 5 0)) cbTrue 2 1 0 9999 26824 [] =
      (DcStatus.dataformat, [])) ∧
    ∃ rec rem₂,
      extractLoop imgOrdered (some (List.replicate 5 0)) cbTrue 2 1 0 0 26824 [] =
        extractLoop imgOrdered (some (List.replicate 5 0)) cbTrue 2 0 1
          (slotHeader imgOrdered (slotOff (walkIdx 2 0))) rem₂ ([] ++ [rec]) :=
  ⟨(C2_continuity imgOrdered (some (List.replicate 5 0)) cbTrue 2 0 0 9999 26824 []
      (by decide)).1 (by decide) (by decide),
    (C2_continuity imgOrdered (some (List.replicate 5 0)) cbTrue 2 0 0 0 26824 []
      (by decide)).2 (by decide) (Or.inl rfl) (fun _ _ => rfl)⟩

/-- C6 witness: the theorem applied to `imgOrdered` with zero remaining
capacity. -/
theorem C6_graceful_degradation_witness :
    (extractLoop imgOrdered (some (List.replicate 5 0)) cbTrue 2 (0 + 1) 0 0 0 [] =
      (if cbTrue (bytesFrom imgOrdered (slotOff (walkIdx 2 0)) RB_LOGBOOK_SIZE)
            (slotId imgOrdered (slotOff (walkIdx 2 0))) then
        extractLoop imgOrdered (some (List.replicate 5 0)) cbTrue 2 0 (0 + 1)
          (slotHeader imgOrdered (slotOff (walkIdx 2 0))) 0
          ([] ++ [bytesFrom imgOrdered (slotOff (walkIdx 2 0)) RB_LOGBOOK_SIZE])
      else
        (DcStatus.success,
          [] ++ [bytesFrom imgOrdered (slotOff (walkIdx 2 0)) RB_LOGBOOK_SIZE]))) ∧
    (bytesFrom imgOrdered (slotOff (walkIdx 2 0)) RB_LOGBOOK_SIZE).length =
      RB_LOGBOOK_SIZE :=
  C6_graceful_degradation imgOrdered (some (List.replicate 5 0)) cbTrue 2 0 0 0 0 []
    (by decide) (Or.inl rfl) (by decide) (by decide)
